import Mathlib

/-!
# Verification of the scenario-simulation engines

Shallow embedding of the four simulation engines of the advisory platform
(`GameTheory.ts`, `EPR.ts` — `EPRSimulator` and `EvolutionarySimulator` —
and `ProspectTheory.ts`), together with proofs and refutations of the
spec claims about them.

Randomness (`Math.random()`) is modelled by an explicit stream
`r : ℕ → ℚ` (resp. `ℕ → ℝ`) of draws consumed in program order, threaded
through the definitions by an index counter.  Floating-point numbers are
modelled as rationals where the code only uses field operations and
comparisons, and as reals where it uses `Math.pow` / `Math.exp`.
-/

namespace GameTheory

/-- Configuration record of `GameTheorySimulator` (`GameTheoryConfig`). -/
structure Config where
  players : Nat
  strategies : List String
  payoffs : List (List (List ℚ))
  iterations : Nat

/-- Result record of `GameTheorySimulator.simulate` (`GameTheoryResult`). -/
structure Result where
  equilibrium : List String
  payoffs : List ℚ
  convergence : List ℚ
  iterations : Nat
deriving DecidableEq

/-- `GameTheorySimulator.getPayoff`: for two recorded strategies the payoff is
`payoffs[s0][s1][player]`; otherwise the degenerate fallback
`payoffs[0][0][player] || 0`. Out-of-range lookups default to `0`. -/
def getPayoff (cfg : Config) (player : Nat) (strategies : List Nat) : ℚ :=
  if strategies.length = 2 then
    (((cfg.payoffs.getD (strategies.getD 0 0) []).getD (strategies.getD 1 0) []).getD player 0)
  else
    ((cfg.payoffs.getD 0 []).getD 0 []).getD player 0

/-- Payoff to `player` when it deviates to strategy `q`, all else fixed
(the `testStrategies` construction inside `findBestResponse`). -/
def payoffAt (cfg : Config) (player : Nat) (current : List Nat) (q : Nat) : ℚ :=
  getPayoff cfg player (current.set player q)

/-- The fold of `GameTheorySimulator.findBestResponse` over the first `m`
candidate strategies.  The accumulator is `(bestStrategy, bestPayoff)`,
with `none` standing for the initial `-Infinity` payoff. -/
def brFold (cfg : Config) (player : Nat) (current : List Nat) (m : Nat) : Nat × Option ℚ :=
  (List.range m).foldl
    (fun acc strategy =>
      let payoff := payoffAt cfg player current strategy
      match acc.2 with
      | none => (strategy, some payoff)
      | some best => if best < payoff then (strategy, some payoff) else acc)
    (0, none)

/-- `GameTheorySimulator.findBestResponse`. -/
def findBestResponse (cfg : Config) (player : Nat) (current : List Nat) : Nat :=
  (brFold cfg player current cfg.strategies.length).1

/-- The in-place update loop of `simulate` after the first `p` players have
taken their turn in the current round (`playerStrategies[player] = bestResponse`). -/
def partialRound (cfg : Config) (s : List Nat) (p : Nat) : List Nat :=
  (List.range p).foldl (fun strats player => strats.set player (findBestResponse cfg player strats)) s

/-- One full round of the `simulate` loop: every player updates in index order,
each seeing the earlier players' already-updated strategies. -/
def bestResponseRound (cfg : Config) (s : List Nat) : List Nat :=
  partialRound cfg s cfg.players

/-- Modelled from the spec: a *simultaneous* best-response round, every player
responding to the profile recorded at the start of the round.  Used only to
compare the spec's wording with the code's sequential round. -/
def simultaneousRound (cfg : Config) (s : List Nat) : List Nat :=
  (List.range cfg.players).map (fun player => findBestResponse cfg player s)

/-- `GameTheorySimulator.calculateConvergence`: `matches / current.length`.
The division is written `Rat.divInt` (equal to `(matches : ℚ) / current.length`
by `Rat.divInt_eq_div` and `natCast` lemmas) so that it stays kernel-reducible. -/
def calculateConvergence (history : List (List Nat)) : ℚ :=
  if history.length < 2 then 0
  else
    let current := history.getD (history.length - 1) []
    let previous := history.getD (history.length - 2) []
    Rat.divInt (((current.zip previous).filter (fun p => p.1 == p.2)).length : ℤ)
      (current.length : ℤ)

/-- `GameTheorySimulator.calculatePayoffs`. -/
def calculatePayoffs (cfg : Config) (strategies : List Nat) : List ℚ :=
  (List.range cfg.players).map (fun player => getPayoff cfg player strategies)

/-- Loop state of `simulate`: current strategies, pushed history, convergence
series. -/
structure LoopState where
  strategies : List Nat
  history : List (List Nat)
  convergence : List ℚ

/-- The `for iter` loop of `simulate`, with the `converged > 0.99` early break.
`fuel` is the number of remaining iterations. -/
def simulateLoop (cfg : Config) : Nat → LoopState → LoopState
  | 0, st => st
  | fuel + 1, st =>
    let history := st.history ++ [st.strategies]
    let strategies := bestResponseRound cfg st.strategies
    let converged := calculateConvergence history
    let convergence := st.convergence ++ [converged]
    let st' : LoopState := ⟨strategies, history, convergence⟩
    if Rat.divInt 99 100 < converged then st' else simulateLoop cfg fuel st'

/-- `GameTheorySimulator.simulate` starting from a given initial strategy
profile (the profile the code draws uniformly at random). -/
def simulateFrom (cfg : Config) (initial : List Nat) : Result :=
  let final := simulateLoop cfg cfg.iterations ⟨initial, [], []⟩
  { equilibrium := final.strategies.map (fun s => cfg.strategies.getD s "")
    payoffs := calculatePayoffs cfg final.strategies
    convergence := final.convergence
    iterations := final.convergence.length }

/-- The random initialisation `Math.floor(Math.random() * strategies.length)`
per player. -/
def initialStrategies (cfg : Config) (r : ℕ → ℚ) : List Nat :=
  (List.range cfg.players).map (fun player => (⌊r player * cfg.strategies.length⌋).toNat)

/-- `GameTheorySimulator.simulate`, drawing the initial profile from the
random stream `r`. -/
def simulate (cfg : Config) (r : ℕ → ℚ) : Result :=
  simulateFrom cfg (initialStrategies cfg r)

/-- The configuration built by `GameTheorySimulator.prisonersDilemma`. -/
def prisonersDilemmaConfig : Config :=
  { players := 2
    strategies := ["Cooperate", "Defect"]
    payoffs := [[[3, 3], [0, 5]], [[5, 0], [1, 1]]]
    iterations := 100 }

/-- The configuration built by `GameTheorySimulator.coordinationGame`. -/
def coordinationConfig : Config :=
  { players := 2
    strategies := ["Strategy A", "Strategy B"]
    payoffs := [[[2, 2], [0, 0]], [[0, 0], [1, 1]]]
    iterations := 100 }

end GameTheory

namespace GameTheory

/-- An invalid configuration in the sense of the spec's failure conditions:
zero players (`n < 1`), with the constructor's default strategies and payoffs. -/
def zeroPlayersConfig (T : Nat) : Config :=
  { players := 0
    strategies := ["Cooperate", "Defect"]
    payoffs := [[[3, 3], [1, 4]], [[4, 1], [2, 2]]]
    iterations := T }

lemma brFold_succ (cfg : Config) (player : Nat) (current : List Nat) (m : Nat) :
    brFold cfg player current (m + 1) =
      (match (brFold cfg player current m).2 with
       | none => (m, some (payoffAt cfg player current m))
       | some best =>
         if best < payoffAt cfg player current m then
           (m, some (payoffAt cfg player current m))
         else brFold cfg player current m) := by
  unfold brFold
  rw [List.range_succ, List.foldl_append]
  rfl

lemma brFold_spec (cfg : Config) (player : Nat) (current : List Nat) :
    ∀ m, 1 ≤ m →
      (brFold cfg player current m).1 < m ∧
      (brFold cfg player current m).2 =
        some (payoffAt cfg player current (brFold cfg player current m).1) ∧
      (∀ q, q < m → payoffAt cfg player current q ≤
        payoffAt cfg player current (brFold cfg player current m).1) ∧
      (∀ q, q < (brFold cfg player current m).1 →
        payoffAt cfg player current q <
          payoffAt cfg player current (brFold cfg player current m).1) := by
  intro m
  induction m with
  | zero => intro h; exact absurd h (by omega)
  | succ m ih =>
    intro _
    rcases Nat.eq_zero_or_pos m with hm | hm
    · subst hm
      have h0 : brFold cfg player current 0 = (0, none) := rfl
      rw [brFold_succ, h0]
      refine ⟨Nat.zero_lt_one, rfl, ?_, ?_⟩
      · intro q hq
        interval_cases q
        exact le_refl _
      · intro q hq
        exact absurd hq (Nat.not_lt_zero q)
    · obtain ⟨h1, h2, h3, h4⟩ := ih hm
      rw [brFold_succ]
      simp only [h2]
      by_cases hlt : payoffAt cfg player current (brFold cfg player current m).1 <
          payoffAt cfg player current m
      · rw [if_pos hlt]
        refine ⟨Nat.lt_succ_self m, rfl, ?_, ?_⟩
        · intro q hq
          rcases Nat.lt_succ_iff_lt_or_eq.mp hq with hq' | hq'
          · exact le_of_lt (lt_of_le_of_lt (h3 q hq') hlt)
          · subst hq'; exact le_refl _
        · intro q hq
          exact lt_of_le_of_lt (h3 q hq) hlt
      · rw [if_neg hlt]
        refine ⟨Nat.lt_succ_of_lt h1, h2, ?_, h4⟩
        intro q hq
        rcases Nat.lt_succ_iff_lt_or_eq.mp hq with hq' | hq'
        · exact h3 q hq'
        · subst hq'; exact le_of_not_lt hlt

lemma partialRound_succ (cfg : Config) (s : List Nat) (p : Nat) :
    partialRound cfg s (p + 1) =
      (partialRound cfg s p).set p (findBestResponse cfg p (partialRound cfg s p)) := by
  unfold partialRound
  rw [List.range_succ, List.foldl_append]
  rfl

lemma length_partialRound (cfg : Config) (s : List Nat) :
    ∀ p, (partialRound cfg s p).length = s.length := by
  intro p
  induction p with
  | zero => rfl
  | succ p ih => rw [partialRound_succ, List.length_set]; exact ih

lemma getD_partialRound (cfg : Config) (s : List Nat) (p : Nat) (hp : p < s.length) :
    ∀ m, p + 1 ≤ m →
      (partialRound cfg s m).getD p 0 = findBestResponse cfg p (partialRound cfg s p) := by
  intro m
  induction m with
  | zero => intro h; exact absurd h (by omega)
  | succ m ih =>
    intro h
    rcases Nat.eq_or_lt_of_le h with he | hlt
    · have hm : m = p := by omega
      subst hm
      rw [partialRound_succ, List.getD_eq_getElem?_getD,
        List.getElem?_set_eq_of_lt _ (by rw [length_partialRound]; exact hp)]
      rfl
    · have hmp : p ≠ m := by omega
      rw [partialRound_succ, List.getD_eq_getElem?_getD, List.getElem?_set_ne (by omega),
        ← List.getD_eq_getElem?_getD]
      exact ih (by omega)

/-- C1 counterexample: in the coordination game, with the round starting at the
recorded profile `[0, 1]`, the post-round profile produced by the `simulate`
loop is `[1, 1]`, whereas recomputing every player's best response against the
profile recorded at the start of the round gives `[1, 0]`.  The update is
sequential (in place), not simultaneous. -/
theorem c1_counterexample :
    (simulateLoop coordinationConfig 1 ⟨[0, 1], [], []⟩).strategies = [1, 1] ∧
    simultaneousRound coordinationConfig [0, 1] = [1, 0] := by
  decide

/-- C1 amended: on each round of `GameTheorySimulator.simulate` the players
update *sequentially in index order*: player `p`'s post-round strategy is its
best response against the profile in which players `0..p-1` have already been
updated this round (`partialRound`); the chosen strategy maximises `p`'s payoff
over all candidate strategies against that profile, with ties resolved in
favour of the lowest strategy index. -/
theorem c1_amended (cfg : Config) (s : List Nat) (p : Nat)
    (hlen : s.length = cfg.players) (hp : p < cfg.players) :
    ((bestResponseRound cfg s).getD p 0 = findBestResponse cfg p (partialRound cfg s p)) ∧
    (∀ q, q < cfg.strategies.length →
      payoffAt cfg p (partialRound cfg s p) q ≤
        payoffAt cfg p (partialRound cfg s p) (findBestResponse cfg p (partialRound cfg s p))) ∧
    (∀ q, q < findBestResponse cfg p (partialRound cfg s p) →
      payoffAt cfg p (partialRound cfg s p) q <
        payoffAt cfg p (partialRound cfg s p) (findBestResponse cfg p (partialRound cfg s p))) := by
  refine ⟨getD_partialRound cfg s p (hlen ▸ hp) cfg.players hp, ?_, ?_⟩
  · intro q hq
    have hk : 1 ≤ cfg.strategies.length := by omega
    obtain ⟨_, _, h3, _⟩ := brFold_spec cfg p (partialRound cfg s p) cfg.strategies.length hk
    exact h3 q hq
  · intro q hq
    rcases Nat.eq_zero_or_pos cfg.strategies.length with hk | hk
    · have : findBestResponse cfg p (partialRound cfg s p) = 0 := by
        unfold findBestResponse
        rw [hk]
        rfl
      omega
    · obtain ⟨_, _, _, h4⟩ := brFold_spec cfg p (partialRound cfg s p) cfg.strategies.length hk
      exact h4 q hq

/-- Witness for `c1_amended` at the coordination game, profile `[0, 1]`,
player `0`. -/
theorem c1_amended_witness :
    ([0, 1] : List Nat).length = coordinationConfig.players ∧
    0 < coordinationConfig.players ∧
    (((bestResponseRound coordinationConfig [0, 1]).getD 0 0 =
        findBestResponse coordinationConfig 0 (partialRound coordinationConfig [0, 1] 0)) ∧
      (∀ q, q < coordinationConfig.strategies.length →
        payoffAt coordinationConfig 0 (partialRound coordinationConfig [0, 1] 0) q ≤
          payoffAt coordinationConfig 0 (partialRound coordinationConfig [0, 1] 0)
            (findBestResponse coordinationConfig 0 (partialRound coordinationConfig [0, 1] 0))) ∧
      (∀ q, q < findBestResponse coordinationConfig 0 (partialRound coordinationConfig [0, 1] 0) →
        payoffAt coordinationConfig 0 (partialRound coordinationConfig [0, 1] 0) q <
          payoffAt coordinationConfig 0 (partialRound coordinationConfig [0, 1] 0)
            (findBestResponse coordinationConfig 0 (partialRound coordinationConfig [0, 1] 0)))) :=
  ⟨by decide, by decide, c1_amended coordinationConfig [0, 1] 0 (by decide) (by decide)⟩

/-- C3: in the Prisoner's Dilemma game of `GameTheorySimulator.prisonersDilemma`,
best-response dynamics from every possible initial strategy profile halts within
three rounds on the Defect/Defect profile, with payoffs exactly `(1, 1)`. -/
theorem c3_prisoners_dilemma (s0 s1 : Fin 2) :
    (simulateFrom prisonersDilemmaConfig [s0.val, s1.val]).equilibrium = ["Defect", "Defect"] ∧
    (simulateFrom prisonersDilemmaConfig [s0.val, s1.val]).payoffs = [1, 1] ∧
    (simulateFrom prisonersDilemmaConfig [s0.val, s1.val]).iterations ≤ 3 := by
  fin_cases s0 <;> fin_cases s1 <;> decide

/-- C6 counterexample: the zero-player configuration (`n < 1`, which the spec
says must be rejected before any simulation work) is not rejected: `simulate`
runs and returns a normal result record. -/
theorem c6_counterexample :
    simulate (zeroPlayersConfig 1) (fun _ => 0) =
      { equilibrium := [], payoffs := [], convergence := [0], iterations := 1 } := by
  decide

lemma simulateLoop_no_players (cfg : Config) (hp : cfg.players = 0) :
    ∀ (fuel : Nat) (st : LoopState), st.strategies = [] →
      (simulateLoop cfg fuel st).strategies = [] ∧
      (simulateLoop cfg fuel st).convergence.length = st.convergence.length + fuel := by
  intro fuel
  induction fuel with
  | zero => intro st h; exact ⟨h, rfl⟩
  | succ n ih =>
    rintro ⟨strats, hist, conv⟩ h
    dsimp only at h
    subst h
    have hbr : bestResponseRound cfg [] = [] := by
      unfold bestResponseRound partialRound
      rw [hp]
      rfl
    have hcur : (hist ++ [([] : List Nat)]).getD ((hist ++ [([] : List Nat)]).length - 1) []
        = ([] : List Nat) := by
      rw [List.length_append, List.length_singleton, Nat.add_sub_cancel,
        List.getD_eq_getElem?_getD, List.getElem?_concat_length]
      rfl
    have hconv : calculateConvergence (hist ++ [[]]) = 0 := by
      unfold calculateConvergence
      by_cases hlen : (hist ++ [([] : List Nat)]).length < 2
      · rw [if_pos hlen]
      · rw [if_neg hlen]
        simp only [hcur]
        rfl
    have hstep : simulateLoop cfg (n + 1) ⟨[], hist, conv⟩ =
        simulateLoop cfg n ⟨bestResponseRound cfg [], hist ++ [[]],
          conv ++ [calculateConvergence (hist ++ [[]])]⟩ := by
      show (if Rat.divInt 99 100 < calculateConvergence (hist ++ [[]]) then _ else _) = _
      rw [hconv, if_neg (by norm_num)]
    rw [hstep, hbr]
    obtain ⟨ih1, ih2⟩ := ih ⟨[], hist ++ [[]], conv ++ [calculateConvergence (hist ++ [[]])]⟩ rfl
    refine ⟨ih1, ?_⟩
    rw [ih2]
    dsimp only
    rw [List.length_append, List.length_singleton]
    omega

/-- C6 amended: neither the `GameTheorySimulator` constructor nor `simulate`
validates the configuration.  In particular a configuration with `players = 0`
(violating the spec's `n ≥ 1` failure condition) is not rejected: for every
iteration cap `T ≥ 1`, `simulate` completes normally, returning an empty
equilibrium, empty payoffs, and `T` recorded iterations. -/
theorem c6_amended (T : Nat) (hT : 1 ≤ T) :
    (simulate (zeroPlayersConfig T) (fun _ => 0)).equilibrium = [] ∧
    (simulate (zeroPlayersConfig T) (fun _ => 0)).payoffs = [] ∧
    (simulate (zeroPlayersConfig T) (fun _ => 0)).iterations = T := by
  have hinit : initialStrategies (zeroPlayersConfig T) (fun _ => 0) = [] := rfl
  have h := simulateLoop_no_players (zeroPlayersConfig T) rfl T ⟨[], [], []⟩ rfl
  unfold simulate simulateFrom
  rw [hinit]
  refine ⟨?_, ?_, ?_⟩
  · show (simulateLoop (zeroPlayersConfig T) T ⟨[], [], []⟩).strategies.map _ = []
    rw [h.1]
    rfl
  · rfl
  · show (simulateLoop (zeroPlayersConfig T) T ⟨[], [], []⟩).convergence.length = T
    rw [h.2]
    exact Nat.zero_add T

/-- Witness for `c6_amended` at `T = 1`. -/
theorem c6_amended_witness :
    1 ≤ 1 ∧
    ((simulate (zeroPlayersConfig 1) (fun _ => 0)).equilibrium = [] ∧
      (simulate (zeroPlayersConfig 1) (fun _ => 0)).payoffs = [] ∧
      (simulate (zeroPlayersConfig 1) (fun _ => 0)).iterations = 1) :=
  ⟨le_refl 1, c6_amended 1 (le_refl 1)⟩

end GameTheory

namespace EPR

/-- The shared state record of `EPRSimulator` (`EPRState`).  Rational constants
written `Rat.divInt a b` stand for the source's decimal literals `a/b`. -/
structure EPRState where
  value : ℚ
  stability : ℚ
  equity : ℚ
  reputation : ℚ
  resources : ℚ
deriving DecidableEq

/-- An `EPRAgent`: fixed name, role and principles, plus the write-only private
snapshot of the shared state. -/
structure EPRAgent where
  name : String
  role : String
  state : EPRState
  principles : List String

/-- The red/blue regime label. -/
inductive Zone
  | red
  | blue
deriving DecidableEq

/-- An `EPRScenario`: the `initial` record carries the same five fields as the
state. -/
structure EPRScenario where
  name : String
  initial : EPRState
  steps : ℕ
  zone : Zone

/-- The `EPRSimulator` constructor's state initialisation: each field is
`scenario.initial.x || default`; JavaScript `||` replaces a zero (falsy) value
by the default (`80, 1.0, 0.5, 0.7, 100`). -/
def initState (initial : EPRState) : EPRState :=
  { value := if initial.value = 0 then 80 else initial.value
    stability := if initial.stability = 0 then 1 else initial.stability
    equity := if initial.equity = 0 then Rat.divInt 5 10 else initial.equity
    reputation := if initial.reputation = 0 then Rat.divInt 7 10 else initial.reputation
    resources := if initial.resources = 0 then 100 else initial.resources }

/-- The four fixed agents built by the constructor, each snapshotting the
initial state. -/
def initAgents (s : EPRState) : List EPRAgent :=
  [⟨"EcoAgent", "economic", s, ["prudence", "growth"]⟩,
   ⟨"PolAgent", "political", s, ["stability", "negotiation"]⟩,
   ⟨"SocAgent", "social", s, ["equity", "redistribution"]⟩,
   ⟨"GraciánMaster", "mastery", s, ["gracian_restraint", "reputation", "timing"]⟩]

/-- The zone computation `stability < 1.2 ? 'red' : 'blue'` used in `simulate`. -/
def zoneOf (st : EPRState) : Zone :=
  if st.stability < Rat.divInt 12 10 then .red else .blue

/-- The four agent actions. -/
inductive EPRAction
  | allocate
  | negotiate
  | redistribute
  | restrain
deriving DecidableEq

/-- `EPRSimulator.selectAction`.  Consumes one random draw for the Gracián
override check (only when the principle tag is present, matching `&&`
short-circuiting), then one for the role-biased choice (none for `mastery`).
The default branch indexes `actions[⌊4·random⌋]`; an out-of-range index is
modelled by the `getD` default. -/
def selectAction (agent : EPRAgent) (r : ℕ → ℚ) (i : ℕ) : EPRAction × ℕ :=
  if agent.principles.contains "gracian_restraint" ∧ r i < Rat.divInt 25 100 then
    (.restrain, i + 1)
  else
    let i1 := if agent.principles.contains "gracian_restraint" then i + 1 else i
    match agent.role with
    | "economic" => (if r i1 < Rat.divInt 6 10 then .allocate else .negotiate, i1 + 1)
    | "political" => (if r i1 < Rat.divInt 7 10 then .negotiate else .allocate, i1 + 1)
    | "social" => (if r i1 < Rat.divInt 8 10 then .redistribute else .negotiate, i1 + 1)
    | "mastery" => (.restrain, i1)
    | _ => ([EPRAction.allocate, .negotiate, .redistribute, .restrain].getD
        (⌊r i1 * 4⌋).toNat .allocate, i1 + 1)

/-- `EPRSimulator.calculateReward` — computed and then discarded by
`executeAgentAction` (a latent hook, not a control signal). -/
def calculateReward (action : EPRAction) (zone : Zone) (st : EPRState) : ℚ :=
  let base : ℚ :=
    match action with
    | .allocate => if zone = .red then 8 else 5
    | .negotiate => 12
    | .redistribute => 10
    | .restrain => 6
  let reward :=
    if zone = .red ∧ st.stability < Rat.divInt 12 10 then base * Rat.divInt 115 100 else base
  if st.resources < 20 then reward - 5 else reward

/-- `EPRSimulator.executeAgentAction`: select an action, compute (and discard)
its reward, and apply its state effect. -/
def executeAgentAction (agent : EPRAgent) (zone : Zone) (st : EPRState) (r : ℕ → ℚ)
    (i : ℕ) : EPRState × ℕ :=
  let sel := selectAction agent r i
  let _ := calculateReward sel.1 zone st
  let st1 :=
    match sel.1 with
    | .allocate =>
      if 10 ≤ st.resources then
        { st with resources := st.resources - 10,
                  value := st.value + (if zone = .red then 8 else 5) }
      else st
    | .negotiate =>
      { st with stability := st.stability +
          (if zone = .red then Rat.divInt 15 100 else Rat.divInt 8 100) }
    | .redistribute =>
      { st with equity := st.equity + Rat.divInt 8 100,
                reputation := min 1 (st.reputation + Rat.divInt 5 100) }
    | .restrain =>
      { st with reputation := min 1 (st.reputation + Rat.divInt 8 100) }
  (st1, sel.2)

/-- `EPRSimulator.applySystemDynamics`: stochastic drift, resource regeneration
`+2`, then clamping of stability, equity, reputation and resources to their
declared bounds.  Consumes four random draws. -/
def applySystemDynamics (st : EPRState) (r : ℕ → ℚ) (i : ℕ) : EPRState × ℕ :=
  let value := st.value + (r i - Rat.divInt 3 10) * 5
  let stability := st.stability + (r (i + 1) - Rat.divInt 5 10) * Rat.divInt 5 100
  let equity := st.equity + (r (i + 2) - Rat.divInt 5 10) * Rat.divInt 2 100
  let reputation := st.reputation + (r (i + 3) - Rat.divInt 4 10) * Rat.divInt 3 100
  let resources := st.resources + 2
  ({ value := value
     stability := max 0 (min 2 stability)
     equity := max 0 (min 1 equity)
     reputation := max 0 (min 1 reputation)
     resources := max 0 (min 300 resources) }, i + 4)

/-- One step of the `simulate` loop after the history push: determine the zone,
let the four agents act in order, apply system dynamics, refresh the agents'
snapshots. -/
def eprStep (agents : List EPRAgent) (st : EPRState) (r : ℕ → ℚ) (i : ℕ) :
    EPRState × List EPRAgent × ℕ :=
  let zone := zoneOf st
  let acted := agents.foldl
    (fun (acc : EPRState × ℕ) agent => executeAgentAction agent zone acc.1 r acc.2) (st, i)
  let dyn := applySystemDynamics acted.1 r acted.2
  (dyn.1, agents.map (fun a => { a with state := dyn.1 }), dyn.2)

/-- The per-variable history series of `EPRSimulationResult`. -/
structure History where
  value : List ℚ
  stability : List ℚ
  equity : List ℚ
  reputation : List ℚ

/-- Push the current state onto the history (start of each loop iteration). -/
def push (h : History) (st : EPRState) : History :=
  { value := h.value ++ [st.value]
    stability := h.stability ++ [st.stability]
    equity := h.equity ++ [st.equity]
    reputation := h.reputation ++ [st.reputation] }

/-- Accumulator of the `simulate` loop. -/
structure SimAcc where
  state : EPRState
  agents : List EPRAgent
  idx : ℕ
  history : History

/-- The `for step` loop of `EPRSimulator.simulate`. -/
def eprLoop (r : ℕ → ℚ) : ℕ → SimAcc → SimAcc
  | 0, acc => acc
  | n + 1, acc =>
    let h := push acc.history acc.state
    let stepped := eprStep acc.agents acc.state r acc.idx
    eprLoop r n ⟨stepped.1, stepped.2.1, stepped.2.2, h⟩

/-- `EPRSimulator.generateInsights` (first/last-step deltas; an empty history
entry defaults to `0`, where the source would produce `NaN`). -/
def generateInsights (h : History) (finalState : EPRState) : List String :=
  let valueTrend := h.value.getD (h.value.length - 1) 0 - h.value.getD 0 0
  let stabilityTrend := h.stability.getD (h.stability.length - 1) 0 - h.stability.getD 0 0
  let equityTrend := h.equity.getD (h.equity.length - 1) 0 - h.equity.getD 0 0
  let reputationTrend := h.reputation.getD (h.reputation.length - 1) 0 - h.reputation.getD 0 0
  (if Rat.divInt 1 10 < reputationTrend then
    ["Gracián restraint built reputation early → graceful execution"] else []) ++
  (if 0 < stabilityTrend ∧ Rat.divInt 12 10 ≤ finalState.stability then
    ["Virtuous motion achieved (Red/Blue zone toggling prevented decadence)"] else []) ++
  (if 0 < equityTrend then ["EPR equity safeguards prevented plutonomy"] else []) ++
  (if 50 < valueTrend then ["Strong economic value creation through strategic allocation"] else []) ++
  (if finalState.stability < 1 then ["Warning: Political instability requires attention"] else [])

/-- The result record of `EPRSimulator.simulate` (`EPRSimulationResult`). -/
structure SimResult where
  history : History
  finalState : EPRState
  insights : List String
  zone : Zone

/-- `EPRSimulator.simulate`, on a constructor-initialised simulator. -/
def simulate (scenario : EPRScenario) (r : ℕ → ℚ) : SimResult :=
  let st0 := initState scenario.initial
  let acc := eprLoop r scenario.steps ⟨st0, initAgents st0, 0, ⟨[], [], [], []⟩⟩
  { history := acc.history
    finalState := acc.state
    insights := generateInsights acc.history acc.state
    zone := zoneOf acc.state }

/-- The state reached after `n` loop steps of a `simulate` run (the run's
per-step states are exactly `eprStateAt scenario r n` for `n ≤ steps`). -/
def eprStateAt (scenario : EPRScenario) (r : ℕ → ℚ) (n : ℕ) : EPRState :=
  (eprLoop r n ⟨initState scenario.initial, initAgents (initState scenario.initial),
    0, ⟨[], [], [], []⟩⟩).state

/-- The declared bounds of the four bounded state variables. -/
def inBounds (st : EPRState) : Prop :=
  0 ≤ st.stability ∧ st.stability ≤ 2 ∧ 0 ≤ st.equity ∧ st.equity ≤ 1 ∧
  0 ≤ st.reputation ∧ st.reputation ≤ 1 ∧ 0 ≤ st.resources ∧ st.resources ≤ 300

/-- The preset scenario `EPRSimulator.demographicsCollapse`. -/
def demographicsCollapse : EPRScenario :=
  { name := "Demographics Collapse 2026"
    initial := ⟨40, Rat.divInt 85 100, Rat.divInt 35 100, Rat.divInt 6 10, 40⟩
    steps := 20
    zone := .red }

end EPR

namespace EPR

lemma applySystemDynamics_inBounds (st : EPRState) (r : ℕ → ℚ) (i : ℕ) :
    inBounds (applySystemDynamics st r i).1 := by
  unfold applySystemDynamics inBounds
  refine ⟨le_max_left 0 _, max_le (by norm_num) (min_le_left 2 _), le_max_left 0 _,
    max_le (by norm_num) (min_le_left 1 _), le_max_left 0 _,
    max_le (by norm_num) (min_le_left 1 _), le_max_left 0 _,
    max_le (by norm_num) (min_le_left 300 _)⟩

lemma eprStep_inBounds (agents : List EPRAgent) (st : EPRState) (r : ℕ → ℚ) (i : ℕ) :
    inBounds (eprStep agents st r i).1 :=
  applySystemDynamics_inBounds _ r _

/-- All entries of the history lists of the accumulator stay within the
respective declared bounds. -/
def histBounded (h : History) : Prop :=
  (∀ x ∈ h.stability, 0 ≤ x ∧ x ≤ 2) ∧
  (∀ x ∈ h.equity, 0 ≤ x ∧ x ≤ 1) ∧
  (∀ x ∈ h.reputation, 0 ≤ x ∧ x ≤ 1)

lemma push_bounded (h : History) (st : EPRState) (hh : histBounded h) (hst : inBounds st) :
    histBounded (push h st) := by
  obtain ⟨h1, h2, h3⟩ := hh
  obtain ⟨s1, s2, e1, e2, r1, r2, _, _⟩ := hst
  refine ⟨?_, ?_, ?_⟩ <;> intro x hx <;>
    rcases List.mem_append.mp hx with hx' | hx'
  · exact h1 x hx'
  · rw [List.mem_singleton.mp hx']; exact ⟨s1, s2⟩
  · exact h2 x hx'
  · rw [List.mem_singleton.mp hx']; exact ⟨e1, e2⟩
  · exact h3 x hx'
  · rw [List.mem_singleton.mp hx']; exact ⟨r1, r2⟩

lemma eprLoop_bounds (r : ℕ → ℚ) :
    ∀ (n : ℕ) (acc : SimAcc), inBounds acc.state → histBounded acc.history →
      inBounds (eprLoop r n acc).state ∧ histBounded (eprLoop r n acc).history := by
  intro n
  induction n with
  | zero => intro acc h1 h2; exact ⟨h1, h2⟩
  | succ n ih =>
    intro acc h1 h2
    exact ih _ (eprStep_inBounds acc.agents acc.state r acc.idx) (push_bounded _ _ h2 h1)

lemma initState_inBounds (initial : EPRState)
    (h1 : 0 ≤ initial.stability) (h2 : initial.stability ≤ 2)
    (h3 : 0 ≤ initial.equity) (h4 : initial.equity ≤ 1)
    (h5 : 0 ≤ initial.reputation) (h6 : initial.reputation ≤ 1)
    (h7 : 0 ≤ initial.resources) (h8 : initial.resources ≤ 300) :
    inBounds (initState initial) := by
  unfold initState inBounds
  refine ⟨?_, ?_, ?_, ?_, ?_, ?_, ?_, ?_⟩ <;> dsimp only <;> split <;>
    first
      | assumption
      | norm_num [Rat.divInt_eq_div]

/-- C2: for every initial scenario whose variables lie within the declared
bounds and every random stream, every entry recorded in the returned history
satisfies the bounds — stability in `[0,2]`, equity and reputation in `[0,1]` —
and the resources variable (not recorded in the history) stays in `[0,300]` at
every step, as does the final state. -/
theorem c2_epr_bounds (scenario : EPRScenario) (r : ℕ → ℚ)
    (h1 : 0 ≤ scenario.initial.stability) (h2 : scenario.initial.stability ≤ 2)
    (h3 : 0 ≤ scenario.initial.equity) (h4 : scenario.initial.equity ≤ 1)
    (h5 : 0 ≤ scenario.initial.reputation) (h6 : scenario.initial.reputation ≤ 1)
    (h7 : 0 ≤ scenario.initial.resources) (h8 : scenario.initial.resources ≤ 300) :
    (∀ x ∈ (simulate scenario r).history.stability, 0 ≤ x ∧ x ≤ 2) ∧
    (∀ x ∈ (simulate scenario r).history.equity, 0 ≤ x ∧ x ≤ 1) ∧
    (∀ x ∈ (simulate scenario r).history.reputation, 0 ≤ x ∧ x ≤ 1) ∧
    (∀ n : ℕ, 0 ≤ (eprStateAt scenario r n).resources ∧
      (eprStateAt scenario r n).resources ≤ 300) ∧
    inBounds (simulate scenario r).finalState := by
  have hinit := initState_inBounds scenario.initial h1 h2 h3 h4 h5 h6 h7 h8
  have hempty : histBounded ⟨[], [], [], []⟩ := by
    refine ⟨?_, ?_, ?_⟩ <;> intro x hx <;> exact absurd hx (List.not_mem_nil x)
  have hmain := eprLoop_bounds r scenario.steps
    ⟨initState scenario.initial, initAgents (initState scenario.initial), 0, ⟨[], [], [], []⟩⟩
    hinit hempty
  refine ⟨hmain.2.1, hmain.2.2.1, hmain.2.2.2, ?_, hmain.1⟩
  intro n
  have hn := eprLoop_bounds r n
    ⟨initState scenario.initial, initAgents (initState scenario.initial), 0, ⟨[], [], [], []⟩⟩
    hinit hempty
  exact ⟨hn.1.2.2.2.2.2.2.1, hn.1.2.2.2.2.2.2.2⟩

/-- Witness for `c2_epr_bounds`: the Demographics Collapse preset with a
constant random stream. -/
theorem c2_epr_bounds_witness :
    (0 ≤ demographicsCollapse.initial.stability ∧ demographicsCollapse.initial.stability ≤ 2 ∧
      0 ≤ demographicsCollapse.initial.equity ∧ demographicsCollapse.initial.equity ≤ 1 ∧
      0 ≤ demographicsCollapse.initial.reputation ∧ demographicsCollapse.initial.reputation ≤ 1 ∧
      0 ≤ demographicsCollapse.initial.resources ∧ demographicsCollapse.initial.resources ≤ 300) ∧
    ((∀ x ∈ (simulate demographicsCollapse (fun _ => Rat.divInt 1 2)).history.stability,
        0 ≤ x ∧ x ≤ 2) ∧
      (∀ x ∈ (simulate demographicsCollapse (fun _ => Rat.divInt 1 2)).history.equity,
        0 ≤ x ∧ x ≤ 1) ∧
      (∀ x ∈ (simulate demographicsCollapse (fun _ => Rat.divInt 1 2)).history.reputation,
        0 ≤ x ∧ x ≤ 1) ∧
      (∀ n : ℕ, 0 ≤ (eprStateAt demographicsCollapse (fun _ => Rat.divInt 1 2) n).resources ∧
        (eprStateAt demographicsCollapse (fun _ => Rat.divInt 1 2) n).resources ≤ 300) ∧
      inBounds (simulate demographicsCollapse (fun _ => Rat.divInt 1 2)).finalState) :=
  ⟨by norm_num [demographicsCollapse, Rat.divInt_eq_div],
    c2_epr_bounds demographicsCollapse (fun _ => Rat.divInt 1 2)
      (by norm_num [demographicsCollapse, Rat.divInt_eq_div])
      (by norm_num [demographicsCollapse, Rat.divInt_eq_div])
      (by norm_num [demographicsCollapse, Rat.divInt_eq_div])
      (by norm_num [demographicsCollapse, Rat.divInt_eq_div])
      (by norm_num [demographicsCollapse, Rat.divInt_eq_div])
      (by norm_num [demographicsCollapse, Rat.divInt_eq_div])
      (by norm_num [demographicsCollapse, Rat.divInt_eq_div])
      (by norm_num [demographicsCollapse, Rat.divInt_eq_div])⟩

/-- C10 counterexample: a scenario with initial stability `0` starts from the
default stability `1.0`, and `1.0` lies in the **red** zone (`1.0 < 1.2`), not
the blue zone as the claim asserts. -/
theorem c10_counterexample :
    (initState ⟨40, 0, Rat.divInt 35 100, Rat.divInt 6 10, 40⟩).stability = 1 ∧
    zoneOf (initState ⟨40, 0, Rat.divInt 35 100, Rat.divInt 6 10, 40⟩) = Zone.red := by
  decide

/-- C10 amended: the constructor replaces every initial field equal to `0` by
its built-in default (`value 80`, `stability 1.0`, `equity 0.5`,
`reputation 0.7`, `resources 100`); in particular a scenario with initial
stability `0` starts the simulation from stability `1.0` — which lies in the
red zone, since `1.0 < 1.2` — rather than from `0`. -/
theorem c10_amended (initial : EPRState) :
    ((initState initial).value = if initial.value = 0 then 80 else initial.value) ∧
    ((initState initial).stability = if initial.stability = 0 then 1 else initial.stability) ∧
    ((initState initial).equity =
      if initial.equity = 0 then Rat.divInt 5 10 else initial.equity) ∧
    ((initState initial).reputation =
      if initial.reputation = 0 then Rat.divInt 7 10 else initial.reputation) ∧
    ((initState initial).resources = if initial.resources = 0 then 100 else initial.resources) ∧
    (initial.stability = 0 →
      (initState initial).stability = 1 ∧ zoneOf (initState initial) = Zone.red) := by
  refine ⟨rfl, rfl, rfl, rfl, rfl, ?_⟩
  intro h
  have hs : (initState initial).stability = 1 := by
    unfold initState
    dsimp only
    rw [if_pos h]
  refine ⟨hs, ?_⟩
  unfold zoneOf
  rw [hs, if_pos (by norm_num [Rat.divInt_eq_div])]

/-- Witness for `c10_amended` at a concrete scenario with zero initial
stability. -/
theorem c10_amended_witness :
    (initState ⟨40, 0, Rat.divInt 35 100, Rat.divInt 6 10, 40⟩).stability = 1 ∧
    zoneOf (initState ⟨40, 0, Rat.divInt 35 100, Rat.divInt 6 10, 40⟩) = Zone.red :=
  (c10_amended ⟨40, 0, Rat.divInt 35 100, Rat.divInt 6 10, 40⟩).2.2.2.2.2 rfl

end EPR

namespace Evo

/-- Configuration record of `EvolutionarySimulator` (`EvolutionaryConfig`). -/
structure EvoConfig where
  populationSize : ℕ
  generations : ℕ
  mutationRate : ℚ
  selectionPressure : ℚ
  fitnessFunction : String

/-- An `Individual`: gene vector and cached fitness. -/
structure Individual where
  genes : List ℚ
  fitness : ℚ
deriving DecidableEq

/-- Per-generation metrics (`GenerationData`). -/
structure GenerationData where
  generation : ℕ
  avgFitness : ℚ
  bestFitness : ℚ
  diversity : ℚ

/-- The result record of `EvolutionarySimulator.evolve` (`EvolutionaryResult`). -/
structure EvolutionaryResult where
  generations : List GenerationData
  finalFitness : ℚ
  bestSolution : List ℚ
  convergence : ℚ

/-- The mutable instance fields of an `EvolutionarySimulator`, which persist
across `evolve` calls. -/
structure EvoInstance where
  population : List Individual
  generationHistory : List GenerationData

/-- `EvolutionarySimulator.defaultFitnessFunction`: sum of squares of genes. -/
def defaultFitnessFunction (genes : List ℚ) : ℚ :=
  genes.foldl (fun sum gene => sum + gene * gene) 0

/-- `EvolutionarySimulator.evaluateFitness`, with the fitness function
(the caller-supplied callback, or the default) passed explicitly. -/
def evaluateFitnessWith (f : List ℚ → ℚ) (pop : List Individual) : List Individual :=
  pop.map (fun ind => { ind with fitness := f ind.genes })

/-- The descending-fitness comparator of `population.sort((a, b) => b.fitness - a.fitness)`. -/
def fitGE (a b : Individual) : Prop := b.fitness ≤ a.fitness

instance : DecidableRel fitGE := fun a b => inferInstanceAs (Decidable (b.fitness ≤ a.fitness))

instance : IsTotal Individual fitGE := ⟨fun a b => le_total b.fitness a.fitness⟩

instance : IsTrans Individual fitGE := ⟨fun _ _ _ h1 h2 => le_trans h2 h1⟩

/-- The in-place descending sort by fitness. -/
def sortPop (pop : List Individual) : List Individual := pop.insertionSort fitGE

/-- `Math.floor(populationSize * selectionPressure)`: the elite count. -/
def eliteCount (cfg : EvoConfig) : ℕ :=
  (⌊(cfg.populationSize : ℚ) * cfg.selectionPressure⌋).toNat

/-- `population[Math.floor(Math.random() * population.length)]`. -/
def pick (pop : List Individual) (q : ℚ) : Individual :=
  pop.getD (⌊q * (pop.length : ℚ)⌋).toNat ⟨[], 0⟩

/-- `EvolutionarySimulator.tournamentSelection` with the default tournament
size 3; consumes three random draws. -/
def tournamentSelection (pop : List Individual) (r : ℕ → ℚ) (i : ℕ) : Individual × ℕ :=
  let best0 := pick pop (r i)
  let c1 := pick pop (r (i + 1))
  let best1 := if best0.fitness < c1.fitness then c1 else best0
  let c2 := pick pop (r (i + 2))
  let best2 := if best1.fitness < c2.fitness then c2 else best1
  (best2, i + 3)

/-- `EvolutionarySimulator.crossover`: single-point crossover at a random index. -/
def crossover (p1 p2 : Individual) (r : ℕ → ℚ) (i : ℕ) : Individual × ℕ :=
  let point := (⌊r i * (p1.genes.length : ℚ)⌋).toNat
  (⟨(List.range p1.genes.length).map
      (fun j => if j < point then p1.genes.getD j 0 else p2.genes.getD j 0), 0⟩, i + 1)

/-- `EvolutionarySimulator.mutate`: per-gene mutation with probability
`mutationRate`, perturbing by `(random - 0.5) * 0.2` clamped to `[0, 1]`. -/
def mutateGenes (genes : List ℚ) (rate : ℚ) (r : ℕ → ℚ) (i : ℕ) : List ℚ × ℕ :=
  genes.foldl
    (fun (acc : List ℚ × ℕ) g =>
      if r acc.2 < rate then
        (acc.1 ++ [max 0 (min 1 (g + (r (acc.2 + 1) - Rat.divInt 5 10) * Rat.divInt 2 10))],
          acc.2 + 2)
      else (acc.1 ++ [g], acc.2 + 1))
    ([], i)

/-- One pass of the `while` loop body of `evolveGeneration`: two tournament
selections, single-point crossover, then mutation. -/
def makeChild (cfg : EvoConfig) (pop : List Individual) (r : ℕ → ℚ) (i : ℕ) :
    Individual × ℕ :=
  let t1 := tournamentSelection pop r i
  let t2 := tournamentSelection pop r t1.2
  let c := crossover t1.1 t2.1 r t2.2
  let m := mutateGenes c.1.genes cfg.mutationRate r c.2
  (⟨m.1, c.1.fitness⟩, m.2)

/-- The `while (newPopulation.length < populationSize)` loop of
`evolveGeneration`; each pass appends one tournament/crossover/mutation child.
`fuel` bounds the iteration count (one child per pass suffices). -/
def fillPopulation (cfg : EvoConfig) (pop : List Individual) (r : ℕ → ℚ) :
    ℕ → List Individual × ℕ → List Individual × ℕ
  | 0, acc => acc
  | fuel + 1, acc =>
    if acc.1.length < cfg.populationSize then
      fillPopulation cfg pop r fuel
        (acc.1 ++ [(makeChild cfg pop r acc.2).1], (makeChild cfg pop r acc.2).2)
    else acc

/-- `EvolutionarySimulator.evolveGeneration`: keep the elite unchanged, then
fill the rest of the next generation. -/
def evolveGeneration (cfg : EvoConfig) (pop : List Individual) (r : ℕ → ℚ) (i : ℕ) :
    List Individual × ℕ :=
  fillPopulation cfg pop r cfg.populationSize (pop.take (eliteCount cfg), i)

/-- `reduce((acc, ind) => acc + ind.fitness, 0) / population.length`. -/
def getAverageFitness (pop : List Individual) : ℚ :=
  (pop.foldl (fun acc ind => acc + ind.fitness) 0) / (pop.length : ℚ)

/-- Population variance of a list of values (`calculateVariance`, also the
inner loop of `calculateDiversity`). -/
def varianceList (values : List ℚ) : ℚ :=
  let mean := values.foldl (· + ·) 0 / (values.length : ℚ)
  values.foldl (fun acc val => acc + (val - mean) ^ 2) 0 / (values.length : ℚ)

/-- `EvolutionarySimulator.calculateDiversity`: mean over gene positions of the
population variance at that position. -/
def calculateDiversity (pop : List Individual) : ℚ :=
  if pop.length = 0 then 0
  else
    let geneLength := (pop.headD ⟨[], 0⟩).genes.length
    ((List.range geneLength).foldl
      (fun total i => total + varianceList (pop.map (fun ind => ind.genes.getD i 0))) 0) /
      (geneLength : ℚ)

/-- `EvolutionarySimulator.calculateConvergence`: variance of the best and
average fitness over the last ten recorded generations, mapped to
`max 0 (1 - (varBest + varAvg) / 100)`. -/
def calculateConvergence (history : List GenerationData) : ℚ :=
  if history.length < 2 then 0
  else
    let recent := history.drop (history.length - 10)
    let bestVariance := varianceList (recent.map (·.bestFitness))
    let avgVariance := varianceList (recent.map (·.avgFitness))
    max 0 (1 - (bestVariance + avgVariance) / 100)

/-- `EvolutionarySimulator.initialize`: `populationSize` individuals with
`geneLength` uniform random genes each, fitness `0`. -/
def initializePop (cfg : EvoConfig) (geneLength : ℕ) (r : ℕ → ℚ) (i : ℕ) :
    List Individual × ℕ :=
  ((List.range cfg.populationSize).map
      (fun k => ⟨(List.range geneLength).map (fun j => r (i + k * geneLength + j)), 0⟩),
    i + cfg.populationSize * geneLength)

/-- Accumulator of the `for gen` loop of `evolve`. -/
structure EvoAcc where
  gen : ℕ
  population : List Individual
  history : List GenerationData
  idx : ℕ

/-- The `GenerationData` record pushed for the current generation (after the
evaluate-and-sort step, `this.population[0]` is the head of the sorted
population). -/
def recordOf (f : List ℚ → ℚ) (acc : EvoAcc) : GenerationData :=
  { generation := acc.gen
    avgFitness := getAverageFitness (sortPop (evaluateFitnessWith f acc.population))
    bestFitness := ((sortPop (evaluateFitnessWith f acc.population)).headD ⟨[], 0⟩).fitness
    diversity := calculateDiversity (sortPop (evaluateFitnessWith f acc.population)) }

/-- The `for gen` loop of `EvolutionarySimulator.evolve`: evaluate, sort,
record metrics, then select and reproduce.  There is no early exit. -/
def evolveLoop (cfg : EvoConfig) (f : List ℚ → ℚ) (r : ℕ → ℚ) : ℕ → EvoAcc → EvoAcc
  | 0, acc => acc
  | n + 1, acc =>
    let next := evolveGeneration cfg (sortPop (evaluateFitnessWith f acc.population)) r acc.idx
    evolveLoop cfg f r n ⟨acc.gen + 1, next.1, acc.history ++ [recordOf f acc], next.2⟩

/-- The population `evolve` starts its loop from: the instance population, or a
fresh initialisation when it is empty (`geneLength = population[0]?.genes.length
|| 5`). -/
def evolvePop0 (cfg : EvoConfig) (inst : EvoInstance) (r : ℕ → ℚ) (i : ℕ) :
    List Individual × ℕ :=
  let gl0 := (inst.population.headD ⟨[], 0⟩).genes.length
  let geneLength := if gl0 = 0 then 5 else gl0
  if inst.population.isEmpty then initializePop cfg geneLength r i else (inst.population, i)

/-- `EvolutionarySimulator.evolve` on an instance: auto-initialise an empty
population, run the full generation loop, re-evaluate and sort, and return the
result together with the updated instance fields and random index. -/
def evolveCall (cfg : EvoConfig) (f : List ℚ → ℚ) (inst : EvoInstance) (r : ℕ → ℚ)
    (i : ℕ) : EvolutionaryResult × EvoInstance × ℕ :=
  let pop0 := evolvePop0 cfg inst r i
  let acc := evolveLoop cfg f r cfg.generations ⟨0, pop0.1, inst.generationHistory, pop0.2⟩
  let finalPop := sortPop (evaluateFitnessWith f acc.population)
  ({ generations := acc.history
     finalFitness := (finalPop.headD ⟨[], 0⟩).fitness
     bestSolution := (finalPop.headD ⟨[], 0⟩).genes
     convergence := calculateConvergence acc.history },
   { population := finalPop, generationHistory := acc.history }, acc.idx)

/-- The best recorded fitness of a population: `population[0].fitness` after
evaluation and descending sort. -/
def bestOf (f : List ℚ → ℚ) (pop : List Individual) : ℚ :=
  ((sortPop (evaluateFitnessWith f pop)).headD ⟨[], 0⟩).fitness

/-- A small concrete configuration (population 1, one generation, full
selection pressure) used for concrete runs. -/
def smallConfig : EvoConfig :=
  { populationSize := 1
    generations := 1
    mutationRate := 0
    selectionPressure := 1
    fitnessFunction := "default" }

end Evo

namespace Evo

lemma evolveLoop_succ (cfg : EvoConfig) (f : List ℚ → ℚ) (r : ℕ → ℚ) (n : ℕ) (acc : EvoAcc) :
    evolveLoop cfg f r (n + 1) acc =
      evolveLoop cfg f r n
        ⟨acc.gen + 1,
         (evolveGeneration cfg (sortPop (evaluateFitnessWith f acc.population)) r acc.idx).1,
         acc.history ++ [recordOf f acc],
         (evolveGeneration cfg (sortPop (evaluateFitnessWith f acc.population)) r acc.idx).2⟩ :=
  rfl

lemma evolveLoop_history_length (cfg : EvoConfig) (f : List ℚ → ℚ) (r : ℕ → ℚ) :
    ∀ (n : ℕ) (acc : EvoAcc),
      (evolveLoop cfg f r n acc).history.length = acc.history.length + n := by
  intro n
  induction n with
  | zero => intro acc; rfl
  | succ n ih =>
    intro acc
    rw [evolveLoop_succ, ih]
    dsimp only
    rw [List.length_append, List.length_singleton]
    omega

lemma evolveCall_spec (cfg : EvoConfig) (f : List ℚ → ℚ) (inst : EvoInstance) (r : ℕ → ℚ)
    (i : ℕ) :
    (evolveCall cfg f inst r i).1.generations.length =
      inst.generationHistory.length + cfg.generations ∧
    (evolveCall cfg f inst r i).2.1.generationHistory =
      (evolveCall cfg f inst r i).1.generations :=
  ⟨evolveLoop_history_length cfg f r cfg.generations _, rfl⟩

lemma fillPopulation_extends (cfg : EvoConfig) (pop : List Individual) (r : ℕ → ℚ) :
    ∀ (fuel : ℕ) (acc : List Individual × ℕ),
      acc.1 <+: (fillPopulation cfg pop r fuel acc).1 := by
  intro fuel
  induction fuel with
  | zero => intro acc; exact List.prefix_refl _
  | succ n ih =>
    intro acc
    simp only [fillPopulation]
    by_cases h : acc.1.length < cfg.populationSize
    · rw [if_pos h]
      exact List.IsPrefix.trans (List.prefix_append acc.1 _)
        (ih (acc.1 ++ [(makeChild cfg pop r acc.2).1], (makeChild cfg pop r acc.2).2))
    · rw [if_neg h]

lemma sortPop_perm (pop : List Individual) : List.Perm (sortPop pop) pop :=
  List.perm_insertionSort fitGE pop

lemma sortPop_ne_nil (pop : List Individual) (h : pop ≠ []) : sortPop pop ≠ [] := by
  intro hnil
  have hperm := sortPop_perm pop
  rw [hnil] at hperm
  exact h hperm.symm.eq_nil

lemma evaluateFitnessWith_ne_nil (f : List ℚ → ℚ) (pop : List Individual) (h : pop ≠ []) :
    evaluateFitnessWith f pop ≠ [] := by
  intro hnil
  exact h (List.map_eq_nil_iff.mp hnil)

lemma head_fitness_max (pop : List Individual) (x : Individual) (hx : x ∈ sortPop pop) :
    x.fitness ≤ ((sortPop pop).headD ⟨[], 0⟩).fitness := by
  have hs : List.Sorted fitGE (sortPop pop) := List.sorted_insertionSort fitGE pop
  cases hsort : sortPop pop with
  | nil => rw [hsort] at hx; exact absurd hx (List.not_mem_nil x)
  | cons a t =>
    rw [hsort] at hx hs
    rw [List.headD_cons]
    rcases List.mem_cons.mp hx with h | h
    · rw [h]
    · exact List.rel_of_sorted_cons hs x h

lemma eval_mem_fitness (f : List ℚ → ℚ) (pop : List Individual) (x : Individual)
    (hx : x ∈ evaluateFitnessWith f pop) : x.fitness = f x.genes := by
  obtain ⟨ind, _, rfl⟩ := List.mem_map.mp hx
  rfl

lemma evolveGeneration_ne_nil (cfg : EvoConfig) (r : ℕ → ℚ) (i : ℕ)
    (sorted : List Individual) (hne : sorted ≠ []) (helite : 1 ≤ eliteCount cfg) :
    (evolveGeneration cfg sorted r i).1 ≠ [] := by
  have htake : sorted.take (eliteCount cfg) ≠ [] := by
    obtain ⟨b, t, rfl⟩ := List.exists_cons_of_ne_nil hne
    obtain ⟨k, hk⟩ := Nat.exists_eq_add_of_le helite
    rw [hk, Nat.add_comm, List.take_succ_cons]
    exact List.cons_ne_nil b _
  intro h0
  have hpre := fillPopulation_extends cfg sorted r cfg.populationSize
    (sorted.take (eliteCount cfg), i)
  rw [show (evolveGeneration cfg sorted r i).1 =
    (fillPopulation cfg sorted r cfg.populationSize (sorted.take (eliteCount cfg), i)).1
    from rfl] at h0
  rw [h0] at hpre
  exact htake (List.prefix_nil.mp hpre)

lemma evolveGeneration_best_ge (cfg : EvoConfig) (f : List ℚ → ℚ) (r : ℕ → ℚ) (i : ℕ)
    (pop : List Individual) (hpop : pop ≠ []) (helite : 1 ≤ eliteCount cfg) :
    bestOf f pop ≤
      bestOf f (evolveGeneration cfg (sortPop (evaluateFitnessWith f pop)) r i).1 := by
  have hne : sortPop (evaluateFitnessWith f pop) ≠ [] :=
    sortPop_ne_nil _ (evaluateFitnessWith_ne_nil f pop hpop)
  obtain ⟨b, t, hbt⟩ := List.exists_cons_of_ne_nil hne
  have hbest : bestOf f pop = b.fitness := by
    rw [bestOf, hbt, List.headD_cons]
  have hbmem : b ∈ evaluateFitnessWith f pop := by
    rw [← List.mem_insertionSort (r := fitGE)]
    show b ∈ sortPop (evaluateFitnessWith f pop)
    rw [hbt]
    exact List.mem_cons_self b t
  have hbf : b.fitness = f b.genes := eval_mem_fitness f pop b hbmem
  have hmem : b ∈ (evolveGeneration cfg (sortPop (evaluateFitnessWith f pop)) r i).1 := by
    have htake : b ∈ (sortPop (evaluateFitnessWith f pop)).take (eliteCount cfg) := by
      rw [hbt]
      obtain ⟨k, hk⟩ := Nat.exists_eq_add_of_le helite
      rw [hk, Nat.add_comm, List.take_succ_cons]
      exact List.mem_cons_self b _
    exact (fillPopulation_extends cfg _ r cfg.populationSize
      ((sortPop (evaluateFitnessWith f pop)).take (eliteCount cfg), i)).subset htake
  have himg : ({ b with fitness := f b.genes } : Individual) ∈
      evaluateFitnessWith f (evolveGeneration cfg (sortPop (evaluateFitnessWith f pop)) r i).1 :=
    List.mem_map_of_mem _ hmem
  have hle := head_fitness_max
    (evaluateFitnessWith f (evolveGeneration cfg (sortPop (evaluateFitnessWith f pop)) r i).1)
    ({ b with fitness := f b.genes })
    ((List.mem_insertionSort (r := fitGE)).mpr himg)
  calc bestOf f pop = b.fitness := hbest
    _ = ({ b with fitness := f b.genes } : Individual).fitness := hbf
    _ ≤ _ := hle

lemma recordOf_bestFitness (f : List ℚ → ℚ) (acc : EvoAcc) :
    (recordOf f acc).bestFitness = bestOf f acc.population := rfl

lemma evolveLoop_chain (cfg : EvoConfig) (f : List ℚ → ℚ) (r : ℕ → ℚ)
    (helite : 1 ≤ eliteCount cfg) :
    ∀ (n : ℕ) (acc : EvoAcc), acc.population ≠ [] →
      List.Chain' (· ≤ ·) (acc.history.map GenerationData.bestFitness) →
      (∀ x ∈ (acc.history.map GenerationData.bestFitness).getLast?,
        x ≤ bestOf f acc.population) →
      List.Chain' (· ≤ ·)
        ((evolveLoop cfg f r n acc).history.map GenerationData.bestFitness) := by
  intro n
  induction n with
  | zero => intro acc _ hchain _; exact hchain
  | succ n ih =>
    intro acc hpop hchain hlast
    rw [evolveLoop_succ]
    apply ih
    · exact evolveGeneration_ne_nil cfg r acc.idx _
        (sortPop_ne_nil _ (evaluateFitnessWith_ne_nil f acc.population hpop)) helite
    · dsimp only
      rw [List.map_append, List.chain'_append]
      refine ⟨hchain, List.chain'_singleton _, ?_⟩
      intro x hx y hy
      rw [List.map_singleton, List.head?_cons, Option.mem_some_iff] at hy
      rw [← hy, recordOf_bestFitness]
      exact hlast x hx
    · dsimp only
      intro x hx
      rw [List.map_append, List.map_singleton, List.getLast?_concat, Option.mem_some_iff] at hx
      rw [← hx, recordOf_bestFitness]
      exact evolveGeneration_best_ge cfg f r acc.idx acc.population hpop helite

lemma evolvePop0_ne_nil (cfg : EvoConfig) (inst : EvoInstance) (r : ℕ → ℚ) (i : ℕ)
    (hN : 1 ≤ cfg.populationSize) : (evolvePop0 cfg inst r i).1 ≠ [] := by
  unfold evolvePop0
  by_cases h : inst.population.isEmpty
  · rw [if_pos h]
    show ((List.range cfg.populationSize).map _) ≠ []
    intro hnil
    have := List.map_eq_nil_iff.mp hnil
    rw [List.range_eq_nil] at this
    omega
  · rw [if_neg h]
    exact fun hnil => h (by rw [List.isEmpty_iff]; exact hnil)

/-- C4: with the default sum-of-squares fitness function, the recorded
`bestFitness` series of a single `evolve` call on a freshly initialised
simulator is monotonically non-decreasing across generations, for every
configuration with at least one individual and at least one elite slot, every
random stream, and every starting population (elitism keeps the current best
individual, whose deterministic fitness re-evaluates unchanged). -/
theorem c4_best_fitness_monotone (cfg : EvoConfig) (inst : EvoInstance) (r : ℕ → ℚ) (i : ℕ)
    (hfresh : inst.generationHistory = []) (hN : 1 ≤ cfg.populationSize)
    (helite : 1 ≤ eliteCount cfg) :
    List.Chain' (· ≤ ·)
      ((evolveCall cfg defaultFitnessFunction inst r i).1.generations.map
        GenerationData.bestFitness) := by
  have hgen : (evolveCall cfg defaultFitnessFunction inst r i).1.generations =
      (evolveLoop cfg defaultFitnessFunction r cfg.generations
        ⟨0, (evolvePop0 cfg inst r i).1, inst.generationHistory,
          (evolvePop0 cfg inst r i).2⟩).history := rfl
  rw [hgen, hfresh]
  apply evolveLoop_chain cfg defaultFitnessFunction r helite
  · exact evolvePop0_ne_nil cfg inst r i hN
  · exact List.chain'_nil
  · intro x hx
    simp only [List.map_nil, List.getLast?_nil] at hx
    exact absurd hx (by simp)

/-- Witness for `c4_best_fitness_monotone` at the small concrete configuration. -/
theorem c4_best_fitness_monotone_witness :
    (⟨[], []⟩ : EvoInstance).generationHistory = [] ∧
    1 ≤ smallConfig.populationSize ∧ 1 ≤ eliteCount smallConfig ∧
    List.Chain' (· ≤ ·)
      ((evolveCall smallConfig defaultFitnessFunction ⟨[], []⟩ (fun _ => 0) 0).1.generations.map
        GenerationData.bestFitness) :=
  ⟨rfl, le_refl 1, by norm_num [eliteCount, smallConfig],
    c4_best_fitness_monotone smallConfig ⟨[], []⟩ (fun _ => 0) 0 rfl (le_refl 1)
      (by norm_num [eliteCount, smallConfig])⟩

/-- C7: `evolve` never stops early on the convergence heuristic: a single call
on a freshly initialised simulator records exactly `generations` metric
entries, for every fitness function, stream and configuration with at least
one individual and one generation — the loop has no convergence-based exit. -/
theorem c7_full_generation_count (cfg : EvoConfig) (f : List ℚ → ℚ) (inst : EvoInstance)
    (r : ℕ → ℚ) (i : ℕ) (hfresh : inst.generationHistory = [])
    (hG : 1 ≤ cfg.generations) (hN : 1 ≤ cfg.populationSize) :
    (evolveCall cfg f inst r i).1.generations.length = cfg.generations := by
  rw [(evolveCall_spec cfg f inst r i).1, hfresh]
  exact Nat.zero_add _

/-- Witness for `c7_full_generation_count` at the small concrete
configuration. -/
theorem c7_full_generation_count_witness :
    (⟨[], []⟩ : EvoInstance).generationHistory = [] ∧
    1 ≤ smallConfig.generations ∧ 1 ≤ smallConfig.populationSize ∧
    (evolveCall smallConfig defaultFitnessFunction ⟨[], []⟩ (fun _ => 0) 0).1.generations.length =
      smallConfig.generations :=
  ⟨rfl, le_refl 1, le_refl 1,
    c7_full_generation_count smallConfig defaultFitnessFunction ⟨[], []⟩ (fun _ => 0) 0 rfl
      (le_refl 1) (le_refl 1)⟩

/-- C8 counterexample: simulator state persists across calls.  On the same
`EvolutionarySimulator` instance, a first `evolve` call returns one recorded
generation, but a second call returns **two** — the generation history (and the
evolved population) survives the call, so the second result is neither
independent of nor distributed identically to the first. -/
theorem c8_counterexample :
    (evolveCall smallConfig defaultFitnessFunction ⟨[], []⟩ (fun _ => 0) 0).1.generations.length
      = 1 ∧
    ((evolveCall smallConfig defaultFitnessFunction
      (evolveCall smallConfig defaultFitnessFunction ⟨[], []⟩ (fun _ => 0) 0).2.1 (fun _ => 0)
      (evolveCall smallConfig defaultFitnessFunction ⟨[], []⟩
        (fun _ => 0) 0).2.2).1).generations.length = 2 := by
  have h1 := evolveCall_spec smallConfig defaultFitnessFunction ⟨[], []⟩ (fun _ => 0) 0
  have h2 := evolveCall_spec smallConfig defaultFitnessFunction
    (evolveCall smallConfig defaultFitnessFunction ⟨[], []⟩ (fun _ => 0) 0).2.1 (fun _ => 0)
    (evolveCall smallConfig defaultFitnessFunction ⟨[], []⟩ (fun _ => 0) 0).2.2
  constructor
  · rw [h1.1]; rfl
  · rw [h2.1, h1.2, h1.1]; rfl

/-- C8 amended: run-local state is not discarded at the end of an
`EvolutionarySimulator.evolve` call: the returned `generations` array contains
the previously accumulated history plus the new generations, and the instance
keeps that history and the final evolved population for the next call. -/
theorem c8_amended (cfg : EvoConfig) (f : List ℚ → ℚ) (inst : EvoInstance) (r : ℕ → ℚ)
    (i : ℕ) (hN : 1 ≤ cfg.populationSize) (helite : 1 ≤ eliteCount cfg) :
    (evolveCall cfg f inst r i).1.generations.length =
      inst.generationHistory.length + cfg.generations ∧
    (evolveCall cfg f inst r i).2.1.generationHistory =
      (evolveCall cfg f inst r i).1.generations ∧
    (evolveCall cfg f inst r i).2.1.population =
      sortPop (evaluateFitnessWith f
        (evolveLoop cfg f r cfg.generations
          ⟨0, (evolvePop0 cfg inst r i).1, inst.generationHistory,
            (evolvePop0 cfg inst r i).2⟩).population) :=
  ⟨(evolveCall_spec cfg f inst r i).1, (evolveCall_spec cfg f inst r i).2, rfl⟩

/-- Witness for `c8_amended` at the small concrete configuration. -/
theorem c8_amended_witness :
    1 ≤ smallConfig.populationSize ∧ 1 ≤ eliteCount smallConfig ∧
    (evolveCall smallConfig defaultFitnessFunction ⟨[], []⟩ (fun _ => 0) 0).1.generations.length =
      (⟨[], []⟩ : EvoInstance).generationHistory.length + smallConfig.generations :=
  ⟨le_refl 1, by norm_num [eliteCount, smallConfig],
    (c8_amended smallConfig defaultFitnessFunction ⟨[], []⟩ (fun _ => 0) 0 (le_refl 1)
      (by norm_num [eliteCount, smallConfig])).1⟩

end Evo

namespace Prospect

/-- Configuration record of `ProspectTheorySimulator` (`ProspectTheoryConfig`).
Kahneman–Tversky shape parameters; modelled over `ℝ` because the source uses
`Math.pow` and `Math.exp`. -/
structure PTConfig where
  alpha : ℝ
  beta : ℝ
  lambda : ℝ
  gamma : ℝ
  delta : ℝ
  lokLevel : ℝ

/-- A `PTAgent`. -/
structure PTAgent where
  wealth : ℝ
  gamma : ℝ
  lokLevel : ℝ
  referencePoint : ℝ

/-- `ProspectTheorySimulator.valueFunction`:
`x ≥ 0 → x^alpha`, otherwise `-lambda * (-x)^beta`. -/
noncomputable def valueFunction (cfg : PTConfig) (x : ℝ) : ℝ :=
  if 0 ≤ x then x ^ cfg.alpha else -cfg.lambda * (-x) ^ cfg.beta

/-- `ProspectTheorySimulator.weightingFunction`: the boundary branches return
exactly `0` and `1`; strictly inside `(0, 1)` the Prelec-style formula is
evaluated. -/
noncomputable def weightingFunction (p gamma : ℝ) : ℝ :=
  if p ≤ 0 then 0
  else if 1 ≤ p then 1
  else p ^ gamma / (p ^ gamma + (1 - p) ^ gamma) ^ (1 / gamma)

/-- Return record of `simulateAgentDecision`, together with the updated agent
and random index. -/
structure DecisionResult where
  agent : PTAgent
  choice : ℝ
  riskTaken : ℝ
  idx : ℕ

/-- `ProspectTheorySimulator.simulateAgentDecision`: the fixed binary prospect
(20% chance of `300` versus a sure `50`), with LOK noise on the perceived
probability (gated by the *config* `lokLevel`, scaled by the agent's) and on
the reference point, logistic choice with temperature `1 + 10·lokLevel`, then
a Bernoulli draw for the choice and (for the gamble) the realised outcome. -/
noncomputable def simulateAgentDecision (cfg : PTConfig) (r : ℕ → ℝ) (i : ℕ)
    (agent : PTAgent) : DecisionResult :=
  let pTrue : ℝ := 1 / 5
  let gambleHigh : ℝ := 300
  let sureGain : ℝ := 50
  let pp := if 0 < cfg.lokLevel
    then (max (1 / 100) (min (99 / 100)
      (pTrue + (r i - 1 / 2) * (3 / 10) * agent.lokLevel)), i + 1)
    else (pTrue, i)
  let rn := if 0 < agent.lokLevel
    then ((r pp.2 - 1 / 2) * 200 * agent.lokLevel, pp.2 + 1)
    else ((0 : ℝ), pp.2)
  let refPoint := agent.referencePoint + rn.1
  let wP := weightingFunction pp.1 agent.gamma
  let vGamble := wP * valueFunction cfg (gambleHigh - refPoint)
  let vSure := valueFunction cfg (sureGain - refPoint)
  let temperature := 1 + 10 * agent.lokLevel
  let logit := (vGamble - vSure) / temperature
  let probChooseGamble := 1 / (1 + Real.exp (-(max (-20) (min 20 logit))))
  if r rn.2 < probChooseGamble then
    { agent := { agent with wealth := agent.wealth +
        (if r (rn.2 + 1) < pTrue then gambleHigh else 0) }
      choice := 1
      riskTaken := probChooseGamble
      idx := rn.2 + 2 }
  else
    { agent := { agent with wealth := agent.wealth + sureGain }
      choice := 0
      riskTaken := 0
      idx := rn.2 + 1 }

/-- `values.reduce((a, b) => a + b, 0) / values.length`. -/
noncomputable def average (values : List ℝ) : ℝ :=
  values.foldl (· + ·) 0 / (values.length : ℝ)

/-- Accumulator of the inner per-step agent loop: updated agents and the
`stepWealth` / `stepRisk` / `stepDecisions` arrays. -/
structure StepAcc where
  agents : List PTAgent
  stepWealth : List ℝ
  stepRisk : List ℝ
  stepDecisions : List ℝ
  idx : ℕ

/-- Body of the `for (const agent of this.agents)` loop: each agent decides
once and its post-decision wealth is pushed. -/
noncomputable def stepFold (cfg : PTConfig) (r : ℕ → ℝ) (acc : StepAcc)
    (agent : PTAgent) : StepAcc :=
  let d := simulateAgentDecision cfg r acc.idx agent
  ⟨acc.agents ++ [d.agent], acc.stepWealth ++ [d.agent.wealth],
    acc.stepRisk ++ [d.riskTaken], acc.stepDecisions ++ [d.choice], d.idx⟩

/-- One full step over all agents. -/
noncomputable def runStep (cfg : PTConfig) (r : ℕ → ℝ) (agents : List PTAgent)
    (i : ℕ) : StepAcc :=
  agents.foldl (stepFold cfg r) ⟨[], [], [], [], i⟩

/-- Accumulator of the outer `for (let step ...)` loop of `simulate`. -/
structure PTSimAcc where
  agents : List PTAgent
  wealth : List ℝ
  riskPropensity : List ℝ
  decisions : List ℝ
  idx : ℕ

/-- The outer loop of `ProspectTheorySimulator.simulate`, recording the
per-step population averages. -/
noncomputable def ptLoop (cfg : PTConfig) (r : ℕ → ℝ) : ℕ → PTSimAcc → PTSimAcc
  | 0, acc => acc
  | n + 1, acc =>
    let s := runStep cfg r acc.agents acc.idx
    ptLoop cfg r n
      ⟨s.agents, acc.wealth ++ [average s.stepWealth],
        acc.riskPropensity ++ [average s.stepRisk],
        acc.decisions ++ [average s.stepDecisions], s.idx⟩

/-- `calculateValueFunction`: the static curve over `x = -50 .. 50`. -/
noncomputable def calculateValueFunction (cfg : PTConfig) : List ℝ :=
  (List.range 101).map (fun k => valueFunction cfg ((k : ℝ) - 50))

/-- `calculateWeightingFunction`: the static curve over `p = 0, 0.01, …, 1`. -/
noncomputable def calculateWeightingFunction (cfg : PTConfig) : List ℝ :=
  (List.range 101).map (fun k => weightingFunction ((k : ℝ) / 100) cfg.gamma)

/-- Result record of `ProspectTheorySimulator.simulate` (`ProspectTheoryResult`). -/
structure PTResult where
  valueFunction : List ℝ
  weightingFunction : List ℝ
  decisions : List ℝ
  wealth : List ℝ
  riskPropensity : List ℝ

/-- `ProspectTheorySimulator.initialize`: half the cohort rational
(`lokLevel 0`, config `gamma`), the rest low-knowledge (`gamma 0.3`,
`lokLevel = config.lokLevel || 1`). -/
noncomputable def initializeAgents (cfg : PTConfig) (nAgents : ℕ) (initialWealth : ℝ) :
    List PTAgent :=
  (List.range (nAgents / 2)).map (fun _ => ⟨initialWealth, cfg.gamma, 0, 0⟩) ++
  (List.range (nAgents - nAgents / 2)).map
    (fun _ => ⟨initialWealth, (3 : ℝ) / 10, if cfg.lokLevel = 0 then 1 else cfg.lokLevel, 0⟩)

/-- `ProspectTheorySimulator.simulate` from a given agent population (empty
population auto-initialises with 500 agents of wealth 1000). -/
noncomputable def ptSimulateFrom (cfg : PTConfig) (agents : List PTAgent) (steps : ℕ)
    (r : ℕ → ℝ) : PTResult :=
  let agents0 := if agents.isEmpty then initializeAgents cfg 500 1000 else agents
  let acc := ptLoop cfg r steps ⟨agents0, [], [], [], 0⟩
  ⟨calculateValueFunction cfg, calculateWeightingFunction cfg,
    acc.decisions, acc.wealth, acc.riskPropensity⟩

end Prospect

namespace Prospect

/-- C5: the probability weighting function returns exactly `0` at `p = 0` and
exactly `1` at `p = 1` for every `gamma` (the boundary branches run before the
formula); for `0 < p < 1` it equals
`p^gamma / (p^gamma + (1-p)^gamma)^(1/gamma)`, whose denominator is strictly
positive — the division never divides by zero. -/
theorem c5_weighting_boundaries :
    (∀ gamma : ℝ, weightingFunction 0 gamma = 0 ∧ weightingFunction 1 gamma = 1) ∧
    (∀ p gamma : ℝ, 0 < p → p < 1 →
      weightingFunction p gamma =
        p ^ gamma / (p ^ gamma + (1 - p) ^ gamma) ^ (1 / gamma) ∧
      (p ^ gamma + (1 - p) ^ gamma) ^ (1 / gamma) ≠ 0) := by
  constructor
  · intro gamma
    constructor
    · rw [weightingFunction, if_pos le_rfl]
    · rw [weightingFunction, if_neg (by norm_num), if_pos le_rfl]
  · intro p gamma hp0 hp1
    refine ⟨?_, ?_⟩
    · rw [weightingFunction, if_neg (not_le.mpr hp0), if_neg (not_le.mpr hp1)]
    · have h1 : (0 : ℝ) < p ^ gamma := Real.rpow_pos_of_pos hp0 gamma
      have h2 : (0 : ℝ) < (1 - p) ^ gamma := Real.rpow_pos_of_pos (by linarith) gamma
      exact ne_of_gt (Real.rpow_pos_of_pos (by linarith) (1 / gamma))

/-- Witness for `c5_weighting_boundaries` at `p = 1/2`, `gamma = 2`. -/
theorem c5_weighting_boundaries_witness :
    (weightingFunction 0 2 = 0 ∧ weightingFunction 1 2 = 1) ∧
    (0 : ℝ) < 1 / 2 ∧ (1 / 2 : ℝ) < 1 ∧
    (weightingFunction (1 / 2) 2 =
      (1 / 2 : ℝ) ^ (2 : ℝ) / ((1 / 2 : ℝ) ^ (2 : ℝ) + (1 - 1 / 2 : ℝ) ^ (2 : ℝ)) ^
        (1 / (2 : ℝ)) ∧
      ((1 / 2 : ℝ) ^ (2 : ℝ) + (1 - 1 / 2 : ℝ) ^ (2 : ℝ)) ^ (1 / (2 : ℝ)) ≠ 0) :=
  ⟨c5_weighting_boundaries.1 2, by norm_num, by norm_num,
    c5_weighting_boundaries.2 (1 / 2) 2 (by norm_num) (by norm_num)⟩

lemma ite_decision_wealth (C1 C2 : Prop) [Decidable C1] [Decidable C2] (a : PTAgent)
    (risk : ℝ) (i1 i2 : ℕ) :
    ∃ d : ℝ, (d = 0 ∨ d = 50 ∨ d = 300) ∧
      (if C1 then
          ({ agent := { a with wealth := a.wealth + (if C2 then 300 else 0) },
             choice := 1, riskTaken := risk, idx := i1 } : DecisionResult)
        else
          { agent := { a with wealth := a.wealth + 50 },
            choice := 0, riskTaken := 0, idx := i2 }).agent.wealth = a.wealth + d := by
  by_cases h1 : C1
  · rw [if_pos h1]
    by_cases h2 : C2
    · exact ⟨300, Or.inr (Or.inr rfl), by rw [if_pos h2]⟩
    · exact ⟨0, Or.inl rfl, by rw [if_neg h2]⟩
  · rw [if_neg h1]
    exact ⟨50, Or.inr (Or.inl rfl), rfl⟩

lemma decision_wealth (cfg : PTConfig) (r : ℕ → ℝ) (i : ℕ) (agent : PTAgent) :
    ∃ d : ℝ, (d = 0 ∨ d = 50 ∨ d = 300) ∧
      (simulateAgentDecision cfg r i agent).agent.wealth = agent.wealth + d := by
  unfold simulateAgentDecision
  dsimp only
  exact ite_decision_wealth _ _ agent _ _ _

lemma decision_wealth_le (cfg : PTConfig) (r : ℕ → ℝ) (i : ℕ) (agent : PTAgent) :
    agent.wealth ≤ (simulateAgentDecision cfg r i agent).agent.wealth := by
  obtain ⟨d, hd, heq⟩ := decision_wealth cfg r i agent
  rw [heq]
  rcases hd with h | h | h <;> rw [h] <;> linarith

lemma runStep_fold (cfg : PTConfig) (r : ℕ → ℝ) :
    ∀ (agents : List PTAgent) (acc : StepAcc),
      ∃ upd : List PTAgent,
        (agents.foldl (stepFold cfg r) acc).agents = acc.agents ++ upd ∧
        (agents.foldl (stepFold cfg r) acc).stepWealth =
          acc.stepWealth ++ upd.map PTAgent.wealth ∧
        List.Forall₂ (fun a b => a.wealth ≤ b.wealth) agents upd := by
  intro agents
  induction agents with
  | nil =>
    intro acc
    exact ⟨[], by simp, by simp, List.Forall₂.nil⟩
  | cons a l ih =>
    intro acc
    obtain ⟨upd, h1, h2, h3⟩ := ih (stepFold cfg r acc a)
    refine ⟨(simulateAgentDecision cfg r acc.idx a).agent :: upd, ?_, ?_, ?_⟩
    · rw [List.foldl_cons, h1]
      show (acc.agents ++ [(simulateAgentDecision cfg r acc.idx a).agent]) ++ upd = _
      rw [List.append_assoc]
      rfl
    · rw [List.foldl_cons, h2]
      show (acc.stepWealth ++ [(simulateAgentDecision cfg r acc.idx a).agent.wealth]) ++
        upd.map PTAgent.wealth = _
      rw [List.append_assoc]
      rfl
    · exact List.Forall₂.cons (decision_wealth_le cfg r acc.idx a) h3

lemma foldl_add_le (l1 l2 : List ℝ) (h : List.Forall₂ (· ≤ ·) l1 l2) :
    ∀ init1 init2 : ℝ, init1 ≤ init2 → l1.foldl (· + ·) init1 ≤ l2.foldl (· + ·) init2 := by
  induction h with
  | nil => intro init1 init2 h; exact h
  | cons hab _ ih =>
    intro init1 init2 hinit
    exact ih _ _ (add_le_add hinit hab)

lemma foldl_add_nonneg (l : List ℝ) (h : ∀ x ∈ l, 0 ≤ x) :
    ∀ init : ℝ, 0 ≤ init → 0 ≤ l.foldl (· + ·) init := by
  induction l with
  | nil => intro init hi; exact hi
  | cons a l ih =>
    intro init hi
    have ha : 0 ≤ a := h a (List.mem_cons_self a l)
    exact ih (fun x hx => h x (List.mem_cons_of_mem a hx)) (init + a) (by linarith)

lemma average_nonneg (l : List ℝ) (h : ∀ x ∈ l, 0 ≤ x) : 0 ≤ average l := by
  unfold average
  apply div_nonneg (foldl_add_nonneg l h 0 le_rfl)
  exact Nat.cast_nonneg l.length

lemma average_le_average (l1 l2 : List ℝ) (h : List.Forall₂ (· ≤ ·) l1 l2) :
    average l1 ≤ average l2 := by
  have hlen : l1.length = l2.length := h.length_eq
  unfold average
  rw [hlen]
  exact div_le_div_of_nonneg_right (foldl_add_le l1 l2 h 0 0 le_rfl) (Nat.cast_nonneg _)

lemma forall₂_wealth_map (l1 l2 : List PTAgent)
    (h : List.Forall₂ (fun a b => a.wealth ≤ b.wealth) l1 l2) :
    List.Forall₂ (· ≤ ·) (l1.map PTAgent.wealth) (l2.map PTAgent.wealth) := by
  induction h with
  | nil => exact List.Forall₂.nil
  | cons hab _ ih => exact List.Forall₂.cons hab ih

lemma forall₂_wealth_nonneg (l1 l2 : List PTAgent)
    (h : List.Forall₂ (fun a b => a.wealth ≤ b.wealth) l1 l2)
    (h1 : ∀ a ∈ l1, 0 ≤ a.wealth) : ∀ b ∈ l2, 0 ≤ b.wealth := by
  induction h with
  | nil => exact h1
  | @cons a b l1' l2' hab _ ih =>
    intro x hx
    rcases List.mem_cons.mp hx with hx' | hx'
    · have := h1 a (List.mem_cons_self a l1')
      rw [hx']
      linarith
    · exact ih (fun y hy => h1 y (List.mem_cons_of_mem a hy)) x hx'

lemma ptLoop_spec (cfg : PTConfig) (r : ℕ → ℝ) :
    ∀ (n : ℕ) (acc : PTSimAcc),
      (∀ a ∈ acc.agents, 0 ≤ a.wealth) →
      (∀ x ∈ acc.wealth, 0 ≤ x) →
      List.Chain' (· ≤ ·) acc.wealth →
      (∀ x ∈ acc.wealth.getLast?, x ≤ average (acc.agents.map PTAgent.wealth)) →
      (∀ x ∈ (ptLoop cfg r n acc).wealth, 0 ≤ x) ∧
        List.Chain' (· ≤ ·) (ptLoop cfg r n acc).wealth := by
  intro n
  induction n with
  | zero => intro acc _ h2 h3 _; exact ⟨h2, h3⟩
  | succ n ih =>
    intro acc h1 h2 h3 h4
    obtain ⟨upd, hu1, hu2, hu3⟩ := runStep_fold cfg r acc.agents ⟨[], [], [], [], acc.idx⟩
    have hagents : (runStep cfg r acc.agents acc.idx).agents = upd := by
      rw [show runStep cfg r acc.agents acc.idx =
        acc.agents.foldl (stepFold cfg r) ⟨[], [], [], [], acc.idx⟩ from rfl, hu1]
      rfl
    have hwealth : (runStep cfg r acc.agents acc.idx).stepWealth = upd.map PTAgent.wealth := by
      rw [show runStep cfg r acc.agents acc.idx =
        acc.agents.foldl (stepFold cfg r) ⟨[], [], [], [], acc.idx⟩ from rfl, hu2]
      rfl
    have hupd_nonneg : ∀ b ∈ upd, 0 ≤ b.wealth := forall₂_wealth_nonneg _ _ hu3 h1
    have havg_le : average (acc.agents.map PTAgent.wealth) ≤ average (upd.map PTAgent.wealth) :=
      average_le_average _ _ (forall₂_wealth_map _ _ hu3)
    have havg_nonneg : 0 ≤ average (upd.map PTAgent.wealth) := by
      apply average_nonneg
      intro x hx
      obtain ⟨b, hb, rfl⟩ := List.mem_map.mp hx
      exact hupd_nonneg b hb
    show (∀ x ∈ (ptLoop cfg r n _).wealth, 0 ≤ x) ∧ _
    apply ih
    · dsimp only
      rw [hagents]
      exact hupd_nonneg
    · dsimp only
      rw [hwealth]
      intro x hx
      rcases List.mem_append.mp hx with hx' | hx'
      · exact h2 x hx'
      · rw [List.mem_singleton.mp hx']
        exact havg_nonneg
    · dsimp only
      rw [hwealth, List.chain'_append]
      refine ⟨h3, List.chain'_singleton _, ?_⟩
      intro x hx y hy
      rw [List.head?_cons, Option.mem_some_iff] at hy
      subst hy
      exact le_trans (h4 x hx) havg_le
    · dsimp only
      rw [hwealth, hagents]
      intro x hx
      rw [List.getLast?_concat, Option.mem_some_iff] at hx
      subst hx
      exact le_rfl

/-- C9: every per-step agent decision adds exactly `0`, `50` or `300` to the
agent's wealth; hence, from any population with non-negative wealths (the
auto-initialised population included), every recorded population-average
wealth entry is non-negative and the recorded per-step average wealth series
is non-decreasing. -/
theorem c9_wealth_monotone (cfg : PTConfig) (agents : List PTAgent) (steps : ℕ)
    (r : ℕ → ℝ) (h0 : ∀ a ∈ agents, 0 ≤ a.wealth) :
    (∀ (a : PTAgent) (i : ℕ), ∃ d : ℝ, (d = 0 ∨ d = 50 ∨ d = 300) ∧
      (simulateAgentDecision cfg r i a).agent.wealth = a.wealth + d) ∧
    (∀ x ∈ (ptSimulateFrom cfg agents steps r).wealth, 0 ≤ x) ∧
    List.Chain' (· ≤ ·) (ptSimulateFrom cfg agents steps r).wealth := by
  refine ⟨fun a i => decision_wealth cfg r i a, ?_⟩
  have hagents0 : ∀ a ∈ (if agents.isEmpty then initializeAgents cfg 500 1000 else agents),
      0 ≤ a.wealth := by
    by_cases h : agents.isEmpty
    · rw [if_pos h]
      intro a ha
      rcases List.mem_append.mp ha with ha' | ha' <;>
        · obtain ⟨_, _, rfl⟩ := List.mem_map.mp ha'
          norm_num
    · rw [if_neg h]
      exact h0
  have hmain := ptLoop_spec cfg r steps
    ⟨if agents.isEmpty then initializeAgents cfg 500 1000 else agents, [], [], [], 0⟩
    hagents0 (fun x hx => absurd hx (List.not_mem_nil x)) List.chain'_nil
    (fun x hx => absurd hx (by simp))
  exact hmain

/-- Witness for `c9_wealth_monotone`: two agents of wealth `1000`, two steps,
the constant stream `1/2`. -/
theorem c9_wealth_monotone_witness :
    (∀ a ∈ [(⟨1000, 61 / 100, 0, 0⟩ : PTAgent), ⟨1000, 3 / 10, 1, 0⟩], 0 ≤ a.wealth) ∧
    ((∀ (a : PTAgent) (i : ℕ), ∃ d : ℝ, (d = 0 ∨ d = 50 ∨ d = 300) ∧
        (simulateAgentDecision ⟨88 / 100, 88 / 100, 225 / 100, 61 / 100, 69 / 100, 0⟩
          (fun _ => 1 / 2) i a).agent.wealth = a.wealth + d) ∧
      (∀ x ∈ (ptSimulateFrom ⟨88 / 100, 88 / 100, 225 / 100, 61 / 100, 69 / 100, 0⟩
          [⟨1000, 61 / 100, 0, 0⟩, ⟨1000, 3 / 10, 1, 0⟩] 2 (fun _ => 1 / 2)).wealth, 0 ≤ x) ∧
      List.Chain' (· ≤ ·)
        (ptSimulateFrom ⟨88 / 100, 88 / 100, 225 / 100, 61 / 100, 69 / 100, 0⟩
          [⟨1000, 61 / 100, 0, 0⟩, ⟨1000, 3 / 10, 1, 0⟩] 2 (fun _ => 1 / 2)).wealth) :=
  ⟨by intro a ha; rcases List.mem_cons.mp ha with h | h
      · rw [h]; norm_num
      · rw [List.mem_singleton.mp h]; norm_num,
    c9_wealth_monotone ⟨88 / 100, 88 / 100, 225 / 100, 61 / 100, 69 / 100, 0⟩
      [⟨1000, 61 / 100, 0, 0⟩, ⟨1000, 3 / 10, 1, 0⟩] 2 (fun _ => 1 / 2)
      (by intro a ha; rcases List.mem_cons.mp ha with h | h
          · rw [h]; norm_num
          · rw [List.mem_singleton.mp h]; norm_num)⟩

end Prospect
